import Mathlib

/-!
Verification of the data-cleaning pipeline in `src/data_prep.rs`.

The Rust source is shallowly embedded as follows:

* `f64` values are modelled by `ℚ` (all arithmetic performed by the
  pipeline — sorting, comparisons, quartiles, the IQR bounds — is exact
  on the values involved, and `f64::round` is modelled by explicit
  round-half-away-from-zero on `ℚ`).
* `u64` counts are modelled by `ℕ`; the `u8` codes produced by
  `index as u8` are modelled by `ℕ` with an explicit `% 256`.
* `Option` fields of the Rust struct stay `Option`.
* A Rust function that can panic (out-of-bounds slice indexing in
  `calculate_percentile`) is modelled with an `Option` result, `none`
  standing for the panic.
* The `HashMap<String, u8>` is modelled as an association list queried
  with `List.lookup`; the arbitrary `HashSet` iteration order used to
  enumerate the distinct neighbourhood groups is fixed here as the
  order produced by `List.dedup` of the first-pass collection (no
  theorem below depends on which enumeration order is chosen).
-/

/-- Embeds `struct AirbnbRecord` from `data_prep.rs` (lines 6-18):
six optional raw fields parsed from the CSV plus three derived fields
that are `None` after parsing and are filled in by `encode_features`. -/
structure AirbnbRecord where
  neighbourhood_group : Option String
  room_type : Option String
  price : Option ℚ
  minimum_nights : Option Nat
  number_of_reviews : Option Nat
  availability_365 : Option Nat
  neighbourhood_group_encoded : Option Nat
  room_type_encoded : Option Nat
  price_category : Option String
  deriving DecidableEq, Repr

/-- One CSV row written by `load_and_clean_data` (lines 143-149): each
field is the corresponding record field with `unwrap_or_default()`
applied (`0` for the numeric codes and counts, `""` for the category). -/
structure OutputRow where
  neighbourhood_group_encoded : Nat
  room_type_encoded : Nat
  price_category : String
  minimum_nights : Nat
  number_of_reviews : Nat
  deriving DecidableEq, Repr

/-- Rust `f64::round`: round half away from zero, as an integer result.
Used to embed `(...).round()` on line 57 of `data_prep.rs`. -/
def roundHalfAway (x : ℚ) : ℤ :=
  if 0 ≤ x then ⌊x + 1/2⌋ else -⌊-x + 1/2⌋

/-- The rank computed on line 57 of `data_prep.rs`:
`(percentile / 100.0 * (sorted.len() as f64 - 1.0)).round() as usize`.
The `as usize` cast of a negative float saturates to `0` in Rust, which
`Int.toNat` reproduces. -/
def percentileRank (n : Nat) (p : ℚ) : Nat :=
  (roundHalfAway (p / 100 * ((n : ℚ) - 1))).toNat

/-- Embeds `calculate_percentile` (lines 54-59): copy, sort ascending,
index at the rounded rank.  The indexing `sorted[rank]` panics when out
of bounds; the panic is modelled by the `none` result of `List.get?`. -/
def calculate_percentile (data : List ℚ) (percentile : ℚ) : Option ℚ :=
  (List.insertionSort (· ≤ ·) data).get?
    (percentileRank (List.insertionSort (· ≤ ·) data).length percentile)

/-- Embeds the closure `calc_iqr_and_bounds` (lines 98-105):
`q1 = percentile 25`, `q3 = percentile 75`, `iqr = q3 - q1`,
`lower = (q1 - 1.5*iqr).max(0.0)`, `upper = q3 + 1.5*iqr`.
A panic in either percentile call propagates as `none`. -/
def calc_iqr_and_bounds (data : List ℚ) : Option (ℚ × ℚ) :=
  match calculate_percentile data 25, calculate_percentile data 75 with
  | some q1, some q3 =>
      let iqr := q3 - q1
      some (max (q1 - 3/2 * iqr) 0, q3 + 3/2 * iqr)
  | _, _ => none

/-- The `prices` vector collected during the reading pass (lines 82-84):
the present prices of ALL parsed records, in input order.  Note that
this vector is never rebuilt after the outlier filter runs. -/
def pricesOf (records : List AirbnbRecord) : List ℚ :=
  records.filterMap (fun r => r.price)

/-- The `min_nights` vector collected during the reading pass
(lines 85-87), with `u64` values cast to float. -/
def minNightsOf (records : List AirbnbRecord) : List ℚ :=
  records.filterMap (fun r => r.minimum_nights.map (fun n => (n : ℚ)))

/-- The `num_reviews` vector collected during the reading pass
(lines 88-90). -/
def numReviewsOf (records : List AirbnbRecord) : List ℚ :=
  records.filterMap (fun r => r.number_of_reviews.map (fun n => (n : ℚ)))

/-- The `availabilities` vector collected during the reading pass
(lines 91-93). -/
def availabilitiesOf (records : List AirbnbRecord) : List ℚ :=
  records.filterMap (fun r => r.availability_365.map (fun n => (n : ℚ)))

/-- The four `(lower, upper)` pairs computed on lines 107-110, in source
order; `none` when any of the eight percentile calls panics. -/
structure ColumnBounds where
  minNights : ℚ × ℚ
  numReviews : ℚ × ℚ
  priceCol : ℚ × ℚ
  availability : ℚ × ℚ
  deriving DecidableEq, Repr

/-- Computes the four column bounds of lines 107-110 from the vectors
collected in the reading pass. -/
def allBounds (records : List AirbnbRecord) : Option ColumnBounds :=
  match calc_iqr_and_bounds (minNightsOf records),
        calc_iqr_and_bounds (numReviewsOf records),
        calc_iqr_and_bounds (pricesOf records),
        calc_iqr_and_bounds (availabilitiesOf records) with
  | some mn, some nr, some pr, some av => some ⟨mn, nr, pr, av⟩
  | _, _, _, _ => none

/-- One conjunct of the retain predicate (lines 114-117):
`field.map_or(false, |v| v as f64 >= lower && v as f64 <= upper)`. -/
def checkCol (v : Option ℚ) (b : ℚ × ℚ) : Bool :=
  match v with
  | some x => decide (b.1 ≤ x) && decide (x ≤ b.2)
  | none => false

/-- The full retain predicate of `data.retain` (lines 113-118): all four
columns must be present and within their inclusive bounds. -/
def survives (bs : ColumnBounds) (r : AirbnbRecord) : Bool :=
  checkCol (r.minimum_nights.map (fun n => (n : ℚ))) bs.minNights &&
  checkCol (r.number_of_reviews.map (fun n => (n : ℚ))) bs.numReviews &&
  checkCol r.price bs.priceCol &&
  checkCol (r.availability_365.map (fun n => (n : ℚ))) bs.availability

/-- Embeds `data.retain(|rec| ...)` on lines 113-118. -/
def filterStage (bs : ColumnBounds) (records : List AirbnbRecord) : List AirbnbRecord :=
  records.filter (survives bs)

/-- Embeds the encoding-map construction of lines 121-125:
`set.into_iter().enumerate().map(|(index, value)| (value, index as u8))`.
The input list stands for the set iteration sequence (distinct values);
`index as u8` truncates, hence the explicit `% 256`. -/
def buildEncoding (groups : List String) : List (String × Nat) :=
  groups.enum.map (fun p => (p.2, p.1 % 256))

/-- The distinct neighbourhood groups collected on lines 79-81 from ALL
parsed records (the set is filled before the outlier filter runs).  The
arbitrary `HashSet` iteration order is fixed as `List.dedup` order. -/
def groupsOf (records : List AirbnbRecord) : List String :=
  (records.filterMap (fun r => r.neighbourhood_group)).dedup

/-- The two price thresholds of lines 128-131:
`[percentile(&prices, 33.0), percentile(&prices, 66.0)]`, computed over
the `prices` vector.  `none` when a percentile call panics. -/
def priceThresholds (prices : List ℚ) : Option (ℚ × ℚ) :=
  match calculate_percentile prices 33, calculate_percentile prices 66 with
  | some t1, some t2 => some (t1, t2)
  | _, _ => none

/-- Embeds `AirbnbRecord::encode_features` (lines 21-51).  The two
elements of the `price_percentiles` slice (always built with exactly two
entries at the only call site, line 128) are passed as `t1` and `t2`.
Each of the three `if let Some` blocks assigns its derived field only
when the corresponding raw field is present. -/
def encode_features (rec : AirbnbRecord) (neighbourhood_group_map : List (String × Nat))
    (t1 t2 : ℚ) : AirbnbRecord :=
  let r1 :=
    match rec.neighbourhood_group with
    | some group => { rec with neighbourhood_group_encoded := neighbourhood_group_map.lookup group }
    | none => rec
  let r2 :=
    match r1.room_type with
    | some room_type =>
        { r1 with room_type_encoded :=
            if room_type = "Entire home/apt" then some 0
            else if room_type = "Private room" then some 1
            else if room_type = "Shared room" then some 2
            else some 3 }
    | none => r1
  match r2.price with
  | some price =>
      { r2 with price_category :=
          if price < t1 then some "low"
          else if price < t2 then some "medium"
          else some "high" }
  | none => r2

/-- The emission guard of lines 140-142: a record is written unless its
price or its neighbourhood group is absent. -/
def writtenB (r : AirbnbRecord) : Bool :=
  !(r.price.isNone || r.neighbourhood_group.isNone)

/-- The row written on lines 143-149, each field `unwrap_or_default()`. -/
def emitRow (r : AirbnbRecord) : OutputRow :=
  { neighbourhood_group_encoded := r.neighbourhood_group_encoded.getD 0
    room_type_encoded := r.room_type_encoded.getD 0
    price_category := r.price_category.getD ""
    minimum_nights := r.minimum_nights.getD 0
    number_of_reviews := r.number_of_reviews.getD 0 }

/-- The writing loop of lines 139-150 applied to the encoded records:
skip records failing the guard, write the rest in order. -/
def emitStage (l : List AirbnbRecord) : List OutputRow :=
  (l.filter writtenB).map emitRow

/-- Embeds `load_and_clean_data` (lines 61-153) minus the CSV I/O: the
records are the parsed input, the result is the list of written rows,
and `none` models a panic inside a percentile call.  The stages run in
source order: collect statistics over all records, derive the four
column bounds, retain in-bounds records, build the group map, compute
the two price thresholds over the (pre-filter) `prices` vector, encode
the surviving records, write the guarded rows. -/
def pipeline (records : List AirbnbRecord) : Option (List OutputRow) :=
  match allBounds records with
  | none => none
  | some bs =>
      let filtered := filterStage bs records
      let gmap := buildEncoding (groupsOf records)
      match priceThresholds (pricesOf records) with
      | none => none
      | some (t1, t2) =>
          some (emitStage (filtered.map (fun r => encode_features r gmap t1 t2)))

/-- Following the claim's words, NOT the source: the price thresholds
recomputed over the prices of the dataset that remains after outlier
filtering.  Used only to compare the spec's stated policy against the
pipeline's actual thresholds. -/
def specFilteredThresholds (records : List AirbnbRecord) : Option (ℚ × ℚ) :=
  match allBounds records with
  | some bs => priceThresholds (pricesOf (filterStage bs records))
  | none => none

/-- Convenience constructor for a freshly parsed record: the six raw
fields as given, the three derived fields still `None`. -/
def mkRec (g rt : Option String) (p : Option ℚ) (mn nr av : Option Nat) : AirbnbRecord :=
  ⟨g, rt, p, mn, nr, av, none, none, none⟩

/-- Example dataset A: five records identical except for price
(10, 20, 30, 40, 1000); the price 1000 is an IQR outlier. -/
def recA1 : AirbnbRecord :=
  mkRec (some "A") (some "Private room") (some 10) (some 1) (some 1) (some 100)

def recA2 : AirbnbRecord :=
  mkRec (some "A") (some "Private room") (some 20) (some 1) (some 1) (some 100)

def recA3 : AirbnbRecord :=
  mkRec (some "A") (some "Private room") (some 30) (some 1) (some 1) (some 100)

def recA4 : AirbnbRecord :=
  mkRec (some "A") (some "Private room") (some 40) (some 1) (some 1) (some 100)

def recA5 : AirbnbRecord :=
  mkRec (some "A") (some "Private room") (some 1000) (some 1) (some 1) (some 100)

def exA : List AirbnbRecord := [recA1, recA2, recA3, recA4, recA5]


/-- Example dataset B: one record whose room type is absent. -/
def recB1 : AirbnbRecord := mkRec (some "A") none (some 10) (some 1) (some 1) (some 1)

def exB : List AirbnbRecord := [recB1]


/-- Example dataset C: one full record and one lacking its
neighbourhood group. -/
def recC1 : AirbnbRecord := mkRec (some "A") none (some 10) (some 1) (some 1) (some 1)

def recC2 : AirbnbRecord := mkRec none none (some 10) (some 1) (some 1) (some 1)

def exC : List AirbnbRecord := [recC1, recC2]


/-- The string of n copies of the character a; used to build large
families of pairwise distinct strings. -/
def strOfLen (n : ℕ) : String := String.mk (List.replicate n 'a')

def groups257 : List String := (List.range 257).map strOfLen


lemma roundHalfAway_of_nonneg {x : ℚ} (h : 0 ≤ x) : roundHalfAway x = ⌊x + 1/2⌋ :=
  if_pos h

lemma roundHalfAway_nonneg {x : ℚ} (h : 0 ≤ x) : 0 ≤ roundHalfAway x := by
  rw [roundHalfAway_of_nonneg h]
  exact Int.floor_nonneg.mpr (by linarith)

lemma roundHalfAway_le_int {x : ℚ} {k : ℤ} (hk : 0 ≤ k) (h : x ≤ k) :
    roundHalfAway x ≤ k := by
  unfold roundHalfAway
  split
  · have h1 : x + 1/2 < (k : ℚ) + 1 := by linarith
    have := Int.floor_lt.mpr (by push_cast; linarith : x + 1/2 < ((k + 1 : ℤ) : ℚ))
    omega
  · rename_i hneg
    push_neg at hneg
    have h0 : (0:ℤ) ≤ ⌊-x + 1/2⌋ := Int.floor_nonneg.mpr (by linarith)
    omega

lemma roundHalfAway_mono {x y : ℚ} (h : x ≤ y) :
    roundHalfAway x ≤ roundHalfAway y := by
  unfold roundHalfAway
  split <;> split
  · exact Int.floor_le_floor (by linarith)
  · rename_i hx hy
    push_neg at hy
    linarith
  · rename_i hx hy
    have h1 : (0:ℤ) ≤ ⌊-x + 1/2⌋ := Int.floor_nonneg.mpr (by push_neg at hx; linarith)
    have h2 : (0:ℤ) ≤ ⌊y + 1/2⌋ := Int.floor_nonneg.mpr (by linarith)
    omega
  · rename_i hx hy
    have := Int.floor_le_floor (α := ℚ) (show -y + 1/2 ≤ -x + 1/2 by linarith)
    omega

lemma percentileRank_le {n : ℕ} (hn : 0 < n) {p : ℚ} (h1 : p ≤ 100) :
    percentileRank n p ≤ n - 1 := by
  unfold percentileRank
  have hn1 : (1:ℚ) ≤ (n:ℚ) := by exact_mod_cast hn
  have hk : (((n - 1 : ℕ) : ℤ) : ℚ) = (n : ℚ) - 1 := by
    push_cast [Nat.cast_sub hn]
    ring
  have harg : p / 100 * ((n:ℚ) - 1) ≤ (((n - 1 : ℕ) : ℤ) : ℚ) := by
    rw [hk]
    have hp : p / 100 ≤ 1 := (div_le_one (by norm_num)).mpr h1
    calc p / 100 * ((n:ℚ) - 1) ≤ 1 * ((n:ℚ) - 1) :=
          mul_le_mul_of_nonneg_right hp (by linarith)
      _ = (n:ℚ) - 1 := one_mul _
  have := roundHalfAway_le_int (k := ((n - 1 : ℕ) : ℤ)) (by positivity) harg
  exact Int.toNat_le.mpr this

lemma percentileRank_lt {n : ℕ} (hn : 0 < n) {p : ℚ} (h1 : p ≤ 100) :
    percentileRank n p < n := by
  have := percentileRank_le hn h1
  omega

lemma percentileRank_mono {n : ℕ} (hn : 0 < n) {p q : ℚ} (hpq : p ≤ q) :
    percentileRank n p ≤ percentileRank n q := by
  unfold percentileRank
  have hn1 : (1:ℚ) ≤ (n:ℚ) := by exact_mod_cast hn
  have : p / 100 * ((n:ℚ) - 1) ≤ q / 100 * ((n:ℚ) - 1) := by
    apply mul_le_mul_of_nonneg_right _ (by linarith)
    linarith
  exact Int.toNat_le_toNat (roundHalfAway_mono this)

lemma percentileRank_zero (n : ℕ) : percentileRank n 0 = 0 := by
  unfold percentileRank roundHalfAway
  norm_num

lemma percentileRank_hundred {n : ℕ} (hn : 0 < n) : percentileRank n 100 = n - 1 := by
  unfold percentileRank
  have hn1 : (1:ℚ) ≤ (n:ℚ) := by exact_mod_cast hn
  have harg : (100:ℚ) / 100 * ((n:ℚ) - 1) = (((n - 1 : ℕ) : ℤ) : ℚ) := by
    push_cast [Nat.cast_sub hn]
    ring
  rw [harg, roundHalfAway_of_nonneg (by positivity), Int.floor_int_add]
  norm_num

lemma calculate_percentile_eq_get (data : List ℚ) (p : ℚ)
    (h : percentileRank data.length p < data.length) :
    calculate_percentile data p =
      some ((List.insertionSort (· ≤ ·) data).get
        ⟨percentileRank data.length p, by simpa [List.length_insertionSort] using h⟩) := by
  rw [calculate_percentile]
  conv_lhs => rw [List.length_insertionSort]
  exact List.get?_eq_get _

lemma sorted_sorted (data : List ℚ) :
    List.Sorted (· ≤ ·) (List.insertionSort (· ≤ ·) data) :=
  List.sorted_insertionSort _ data

lemma calculate_percentile_mem {data : List ℚ} (hne : data ≠ []) {p : ℚ}
    (h1 : p ≤ 100) :
    ∃ v, calculate_percentile data p = some v ∧ v ∈ data := by
  have hn : 0 < data.length := List.length_pos.mpr hne
  have hlt := percentileRank_lt hn h1 (p := p)
  refine ⟨_, calculate_percentile_eq_get data p hlt, ?_⟩
  exact (List.mem_insertionSort (· ≤ ·)).mp (List.get_mem _ _ _)

lemma calculate_percentile_pair_le {data : List ℚ} (hne : data ≠ []) {p q : ℚ}
    (hpq : p ≤ q) (hq : q ≤ 100) :
    ∃ vp vq, calculate_percentile data p = some vp ∧ vp ∈ data ∧
      calculate_percentile data q = some vq ∧ vq ∈ data ∧ vp ≤ vq := by
  have hn : 0 < data.length := List.length_pos.mpr hne
  have hltq := percentileRank_lt hn hq (p := q)
  have hltp : percentileRank data.length p < data.length :=
    lt_of_le_of_lt (percentileRank_mono hn hpq) hltq
  refine ⟨_, _, calculate_percentile_eq_get data p hltp, ?_,
    calculate_percentile_eq_get data q hltq, ?_, ?_⟩
  · exact (List.mem_insertionSort (· ≤ ·)).mp (List.get_mem _ _ _)
  · exact (List.mem_insertionSort (· ≤ ·)).mp (List.get_mem _ _ _)
  · exact (sorted_sorted data).rel_get_of_le
      (by simpa [Fin.le_def] using percentileRank_mono hn hpq)

lemma calculate_percentile_singleton (v p : ℚ) : calculate_percentile [v] p = some v := by
  have hs : List.insertionSort (· ≤ ·) [v] = [v] := rfl
  rw [calculate_percentile, hs]
  have hr : percentileRank 1 p = 0 := by
    unfold percentileRank roundHalfAway
    norm_num
  simp [hr]

/-- C6: for every non-empty sequence of numbers, percentile 0 returns the
minimum element and percentile 100 returns the maximum element of the
sequence. -/
theorem percentile_zero_min_hundred_max (data : List ℚ) (hne : data ≠ []) :
    (∃ m, calculate_percentile data 0 = some m ∧ m ∈ data ∧ ∀ y ∈ data, m ≤ y) ∧
    (∃ M, calculate_percentile data 100 = some M ∧ M ∈ data ∧ ∀ y ∈ data, y ≤ M) := by
  have hn : 0 < data.length := List.length_pos.mpr hne
  constructor
  · have hlt : percentileRank data.length 0 < data.length := by
      rw [percentileRank_zero]; exact hn
    refine ⟨_, calculate_percentile_eq_get data 0 hlt,
      (List.mem_insertionSort _).mp (List.get_mem _ _ _), ?_⟩
    intro y hy
    obtain ⟨j, hj⟩ := List.mem_iff_get.mp ((List.mem_insertionSort (· ≤ ·)).mpr hy)
    rw [← hj]
    apply (sorted_sorted data).rel_get_of_le
    simp [Fin.le_def, percentileRank_zero]
  · have hlt : percentileRank data.length 100 < data.length := by
      rw [percentileRank_hundred hn]; omega
    refine ⟨_, calculate_percentile_eq_get data 100 hlt,
      (List.mem_insertionSort _).mp (List.get_mem _ _ _), ?_⟩
    intro y hy
    obtain ⟨j, hj⟩ := List.mem_iff_get.mp ((List.mem_insertionSort (· ≤ ·)).mpr hy)
    rw [← hj]
    apply (sorted_sorted data).rel_get_of_le
    have hj2 := j.isLt
    simp only [List.length_insertionSort] at hj2
    simp [Fin.le_def, percentileRank_hundred hn]
    omega

/-- C10: for every non-empty sequence and percentile p with 0 <= p <= 100,
the rank round(p/100 * (n-1)) computed inside calculate_percentile lies in
[0, n-1] although the code never clamps it, so the indexing is in bounds
and the function returns an element of the input sequence. -/
theorem percentile_rank_safe (data : List ℚ) (p : ℚ) (hne : data ≠ [])
    (h0 : 0 ≤ p) (h1 : p ≤ 100) :
    percentileRank data.length p ≤ data.length - 1 ∧
    ∃ v, calculate_percentile data p = some v ∧ v ∈ data := by
  have hn : 0 < data.length := List.length_pos.mpr hne
  exact ⟨percentileRank_le hn h1, calculate_percentile_mem hne h1⟩

/-- C7 (amended): for every non-empty sequence of NON-NEGATIVE numbers the
derived outlier bounds satisfy lower <= upper, and a single-element
sequence yields lower = upper = that value.  The non-negativity hypothesis
is forced by the counterexample bounds_counter: the clamp
lower = max(0, q1 - 1.5 iqr) makes lower exceed upper on an all-negative
column. -/
theorem bounds_ordered_of_nonneg (data : List ℚ) (hne : data ≠ [])
    (hpos : ∀ x ∈ data, 0 ≤ x) :
    (∃ lo hi, calc_iqr_and_bounds data = some (lo, hi) ∧ lo ≤ hi) ∧
    (∀ v : ℚ, data = [v] → calc_iqr_and_bounds data = some (v, v)) := by
  constructor
  · obtain ⟨q1, q3, h25, hm1, h75, hm3, hle⟩ :=
      calculate_percentile_pair_le hne (by norm_num : (25:ℚ) ≤ 75) (by norm_num)
    have h3 : 0 ≤ q3 := hpos _ hm3
    refine ⟨max (q1 - 3/2 * (q3 - q1)) 0, q3 + 3/2 * (q3 - q1), ?_, ?_⟩
    · rw [calc_iqr_and_bounds, h25, h75]
    · exact max_le (by linarith) (by linarith)
  · intro v hv
    subst hv
    have h0 : 0 ≤ v := hpos v (by simp)
    rw [calc_iqr_and_bounds, calculate_percentile_singleton, calculate_percentile_singleton]
    simp [sub_self, max_eq_left h0]

/-- C5 (amended): on a zero-length sequence calculate_percentile does NOT
surface an EmptyInputError (no such error exists in the program) - the
indexing sorted[rank] is out of bounds and the function fails, modelled
here by the none result.  The caller must guarantee non-empty input. -/
theorem empty_input_panics : ∀ p : ℚ, calculate_percentile [] p = none := by
  intro p
  rfl

/-- C5 counterexample: at the empty list the function fails with an
out-of-bounds index (the rank computes to 0 and sorted[0] does not exist,
a panic in Rust, none here) instead of returning an explicit
EmptyInputError value: the program has no error channel at all. -/
theorem empty_input_counter :
    calculate_percentile [] 33 = none ∧ percentileRank 0 33 = 0 := by
  refine ⟨rfl, ?_⟩
  unfold percentileRank roundHalfAway
  norm_num

/-- C7 counterexample: on the single-point column [-1] the code returns
lower = 0 and upper = -1, so lower <= upper fails, and lower = upper =
value fails as well; the claim is false for sequences with negative
entries. -/
theorem bounds_counter :
    calc_iqr_and_bounds [(-1 : ℚ)] = some (0, -1) ∧ ¬ ((0:ℚ) ≤ -1) := by
  constructor
  · rw [calc_iqr_and_bounds, calculate_percentile_singleton, calculate_percentile_singleton]
    norm_num
  · norm_num

lemma encode_features_raw (rec : AirbnbRecord) (gmap : List (String × Nat)) (t1 t2 : ℚ) :
    (encode_features rec gmap t1 t2).neighbourhood_group = rec.neighbourhood_group ∧
    (encode_features rec gmap t1 t2).room_type = rec.room_type ∧
    (encode_features rec gmap t1 t2).price = rec.price ∧
    (encode_features rec gmap t1 t2).minimum_nights = rec.minimum_nights ∧
    (encode_features rec gmap t1 t2).number_of_reviews = rec.number_of_reviews ∧
    (encode_features rec gmap t1 t2).availability_365 = rec.availability_365 := by
  obtain ⟨g, rt, pr, mn, nr, av, e1, e2, e3⟩ := rec
  cases g <;> cases rt <;> cases pr <;> simp [encode_features]

/-- C8: the outlier filter is idempotent: filtering an already-filtered
record list again with the same bounds returns the identical list in the
same order. -/
theorem filter_idempotent (bs : ColumnBounds) (records : List AirbnbRecord) :
    filterStage bs (filterStage bs records) = filterStage bs records := by
  unfold filterStage
  rw [List.filter_filter]
  simp [Bool.and_self]

/-- C9: encode_features only fills the derived fields; the six raw input
fields (neighbourhood group, room type, price, minimum nights, number of
reviews, availability) are unchanged. -/
theorem encode_preserves_raw_fields (rec : AirbnbRecord) (gmap : List (String × Nat))
    (t1 t2 : ℚ) :
    (encode_features rec gmap t1 t2).neighbourhood_group = rec.neighbourhood_group ∧
    (encode_features rec gmap t1 t2).room_type = rec.room_type ∧
    (encode_features rec gmap t1 t2).price = rec.price ∧
    (encode_features rec gmap t1 t2).minimum_nights = rec.minimum_nights ∧
    (encode_features rec gmap t1 t2).number_of_reviews = rec.number_of_reviews ∧
    (encode_features rec gmap t1 t2).availability_365 = rec.availability_365 :=
  encode_features_raw rec gmap t1 t2

/-- C2 (amended): for a PRESENT room type the encoding is total with the
fixed vocabulary mapped to 0, 1, 2 and every other present string to the
catch-all 3, and the emitted code is always at most 3; but an ABSENT room
type leaves the encoded field untouched (it stays unset for a freshly
parsed record), and emission renders the unset field with the default 0,
not with the catch-all 3 as the claim stated. -/
theorem room_type_encoding (rec : AirbnbRecord) (gmap : List (String × Nat)) (t1 t2 : ℚ) :
    ((encode_features rec gmap t1 t2).room_type_encoded
      = rec.room_type.elim rec.room_type_encoded
          (fun s => some (if s = "Entire home/apt" then 0
            else if s = "Private room" then 1
            else if s = "Shared room" then 2 else 3))) ∧
    (∀ s, rec.room_type = some s →
      ∃ c, (encode_features rec gmap t1 t2).room_type_encoded = some c ∧ c ≤ 3) ∧
    (rec.room_type_encoded = none →
      (emitRow (encode_features rec gmap t1 t2)).room_type_encoded ≤ 3) := by
  obtain ⟨g, rt, pr, mn, nr, av, e1, e2, e3⟩ := rec
  cases g <;> cases rt <;> cases pr <;>
    simp [encode_features, emitRow] <;>
    (try (split_ifs <;> simp_all)) <;>
    (rintro rfl; simp)

lemma survives_iff (bs : ColumnBounds) (r : AirbnbRecord) :
    survives bs r = true ↔
      ((∃ m, r.minimum_nights = some m ∧ bs.minNights.1 ≤ (m:ℚ) ∧ (m:ℚ) ≤ bs.minNights.2) ∧
       (∃ c, r.number_of_reviews = some c ∧ bs.numReviews.1 ≤ (c:ℚ) ∧ (c:ℚ) ≤ bs.numReviews.2) ∧
       (∃ p, r.price = some p ∧ bs.priceCol.1 ≤ p ∧ p ≤ bs.priceCol.2) ∧
       (∃ a, r.availability_365 = some a ∧ bs.availability.1 ≤ (a:ℚ) ∧ (a:ℚ) ≤ bs.availability.2)) := by
  obtain ⟨g, rt, pr, mn, nr, av, e1, e2, e3⟩ := r
  cases mn <;> cases nr <;> cases pr <;> cases av <;>
    simp [survives, checkCol, and_assoc]

lemma survives_price_isSome {bs : ColumnBounds} {r : AirbnbRecord}
    (h : survives bs r = true) : r.price.isSome = true := by
  obtain ⟨-, -, ⟨p, hp, -, -⟩, -⟩ := (survives_iff bs r).mp h
  simp [hp]

lemma writtenB_encode (r : AirbnbRecord) (gmap : List (String × Nat)) (t1 t2 : ℚ) :
    writtenB (encode_features r gmap t1 t2) = writtenB r := by
  have h := encode_features_raw r gmap t1 t2
  simp [writtenB, h.1, h.2.2.1]

lemma emitStage_eq (bs : ColumnBounds) (gmap : List (String × Nat)) (t1 t2 : ℚ)
    (records : List AirbnbRecord) :
    emitStage ((filterStage bs records).map (fun r => encode_features r gmap t1 t2)) =
      (records.filter (fun r => survives bs r && r.neighbourhood_group.isSome)).map
        (fun r => emitRow (encode_features r gmap t1 t2)) := by
  unfold emitStage filterStage
  rw [List.filter_map, List.map_map, List.filter_filter]
  have hf : ∀ a ∈ records,
      ((writtenB ∘ fun r => encode_features r gmap t1 t2) a && survives bs a)
        = (survives bs a && a.neighbourhood_group.isSome) := by
    intro a _
    simp only [Function.comp_apply, writtenB_encode]
    cases hs : survives bs a
    · simp
    · have hp := survives_price_isSome hs
      cases hg : a.neighbourhood_group <;> simp [writtenB, hp, hg]
  rw [List.filter_congr hf]
  simp [Function.comp]

lemma pipeline_eq (records : List AirbnbRecord) (bs : ColumnBounds) (t1 t2 : ℚ)
    (hb : allBounds records = some bs)
    (ht : priceThresholds (pricesOf records) = some (t1, t2)) :
    pipeline records = some (emitStage ((filterStage bs records).map
      (fun r => encode_features r (buildEncoding (groupsOf records)) t1 t2))) := by
  rw [pipeline, hb, ht]

lemma priceThresholds_some {ps : List ℚ} {t1 t2 : ℚ}
    (h : priceThresholds ps = some (t1, t2)) :
    calculate_percentile ps 33 = some t1 ∧ calculate_percentile ps 66 = some t2 := by
  unfold priceThresholds at h
  cases h33 : calculate_percentile ps 33 <;> rw [h33] at h <;>
    cases h66 : calculate_percentile ps 66 <;> rw [h66] at h <;> simp_all

lemma pipeline_inv {records : List AirbnbRecord} {out : List OutputRow}
    (h : pipeline records = some out) :
    ∃ bs t1 t2, allBounds records = some bs ∧
      priceThresholds (pricesOf records) = some (t1, t2) ∧
      out = (records.filter (fun r => survives bs r && r.neighbourhood_group.isSome)).map
          (fun r => emitRow (encode_features r (buildEncoding (groupsOf records)) t1 t2)) := by
  unfold pipeline at h
  cases hb : allBounds records <;> rw [hb] at h
  · simp at h
  case some bs =>
  cases hp : priceThresholds (pricesOf records) <;> rw [hp] at h
  · simp at h
  case some tt =>
  obtain ⟨t1, t2⟩ := tt
  have hpe := pipeline_eq records bs t1 t2 hb hp
  unfold pipeline at hpe
  rw [hb, hp] at hpe
  refine ⟨bs, t1, t2, rfl, rfl, ?_⟩
  rw [← Option.some.inj (hpe.symm.trans h), emitStage_eq]

/-- C3: a record appears in the output stream iff it passed all four column
bound checks (each of which requires the column to be present) and its
neighbourhood group is present; the output lists the surviving records in
order, one emitted row each, and the survives predicate is characterized
exactly as presence plus inclusive bounds for all four columns
simultaneously.  A record with the price present is kept by survives only
within bounds, so the claim's price-present requirement is subsumed. -/
theorem emission_characterization (records : List AirbnbRecord) (out : List OutputRow)
    (h : pipeline records = some out) :
    ∃ bs t1 t2, allBounds records = some bs ∧
      priceThresholds (pricesOf records) = some (t1, t2) ∧
      out = (records.filter (fun r => survives bs r && r.neighbourhood_group.isSome)).map
          (fun r => emitRow (encode_features r (buildEncoding (groupsOf records)) t1 t2)) ∧
      (∀ r : AirbnbRecord, survives bs r = true ↔
        ((∃ m, r.minimum_nights = some m ∧ bs.minNights.1 ≤ (m:ℚ) ∧ (m:ℚ) ≤ bs.minNights.2) ∧
         (∃ c, r.number_of_reviews = some c ∧
            bs.numReviews.1 ≤ (c:ℚ) ∧ (c:ℚ) ≤ bs.numReviews.2) ∧
         (∃ p, r.price = some p ∧ bs.priceCol.1 ≤ p ∧ p ≤ bs.priceCol.2) ∧
         (∃ a, r.availability_365 = some a ∧
            bs.availability.1 ≤ (a:ℚ) ∧ (a:ℚ) ≤ bs.availability.2))) := by
  obtain ⟨bs, t1, t2, hb, hp, hout⟩ := pipeline_inv h
  exact ⟨bs, t1, t2, hb, hp, hout, fun r => survives_iff bs r⟩

lemma encode_price_category {r : AirbnbRecord} {p : ℚ} (gmap : List (String × Nat))
    (t1 t2 : ℚ) (h : r.price = some p) :
    (encode_features r gmap t1 t2).price_category =
      some (if p < t1 then "low" else if p < t2 then "medium" else "high") := by
  obtain ⟨g, rt, pr, mn, nr, av, e1, e2, e3⟩ := r
  simp only at h
  subst h
  cases g <;> cases rt <;> simp [encode_features] <;> (split_ifs <;> simp)

/-- C1 (amended): the two thresholds used to categorize prices are
percentile 33 and percentile 66 of the prices vector collected from ALL
parsed records BEFORE outlier filtering (the prices vector is never
rebuilt after the filter), and every emitted row's category follows the
price < t1 low / price < t2 medium / else high rule at those thresholds. -/
theorem thresholds_from_unfiltered_prices (records : List AirbnbRecord)
    (out : List OutputRow) (h : pipeline records = some out) :
    ∃ t1 t2, calculate_percentile (pricesOf records) 33 = some t1 ∧
      calculate_percentile (pricesOf records) 66 = some t2 ∧
      ∀ row ∈ out, ∃ r ∈ records, ∃ p, r.price = some p ∧
        row.price_category =
          (if p < t1 then "low" else if p < t2 then "medium" else "high") := by
  obtain ⟨bs, t1, t2, hb, hp, hout⟩ := pipeline_inv h
  obtain ⟨h33, h66⟩ := priceThresholds_some hp
  refine ⟨t1, t2, h33, h66, ?_⟩
  intro row hrow
  rw [hout] at hrow
  obtain ⟨r, hrmem, hrow_eq⟩ := List.mem_map.mp hrow
  have hrf := List.mem_filter.mp hrmem
  obtain ⟨-, -, ⟨p, hp2, -, -⟩, -⟩ :=
    (survives_iff bs r).mp (by
      have := hrf.2
      simp only [Bool.and_eq_true] at this
      exact this.1)
  refine ⟨r, hrf.1, p, hp2, ?_⟩
  rw [← hrow_eq]
  simp [emitRow, encode_price_category (buildEncoding (groupsOf records)) t1 t2 hp2]

lemma strOfLen_length (n : ℕ) : (strOfLen n).length = n := by
  rw [strOfLen]
  simp [String.length]

lemma strOfLen_inj : Function.Injective strOfLen := by
  intro a b h
  have h2 := congrArg String.length h
  simpa [strOfLen_length] using h2

lemma groups257_nodup : groups257.Nodup :=
  (List.nodup_range 257).map strOfLen_inj

lemma buildEncoding_mem (l : List String) (i : ℕ) (h : i < l.length) :
    (l.get ⟨i, h⟩, i % 256) ∈ buildEncoding l := by
  unfold buildEncoding
  apply List.mem_map.mpr
  refine ⟨(i, l.get ⟨i, h⟩), ?_, rfl⟩
  apply List.mem_iff_get.mpr
  refine ⟨⟨i, by simpa [List.enum_eq_enumFrom] using h⟩, ?_⟩
  simp [List.enum_eq_enumFrom, List.get_eq_getElem, List.getElem_enumFrom]

lemma mem_buildEncoding_iff {l : List String} {s : String} {c : ℕ} :
    (s, c) ∈ buildEncoding l ↔
      ∃ i, ∃ h : i < l.length, l.get ⟨i, h⟩ = s ∧ c = i % 256 := by
  constructor
  · intro hm
    obtain ⟨⟨i, v⟩, hmem, heq⟩ := List.mem_map.mp hm
    rw [List.enum_eq_enumFrom] at hmem
    obtain ⟨m, hm2⟩ := List.mem_iff_getElem?.mp hmem
    rw [List.getElem?_enumFrom] at hm2
    cases hl : l[m]? with
    | none => rw [hl] at hm2; simp at hm2
    | some w =>
      rw [hl] at hm2
      simp at hm2
      obtain ⟨h3, h4⟩ := hm2
      subst h3
      subst h4
      obtain ⟨hml, hw⟩ := List.getElem?_eq_some.mp hl
      have h1 : w = s := by simpa using congrArg Prod.fst heq
      have h2 : c = m % 256 := by simpa using (congrArg Prod.snd heq).symm
      exact ⟨m, hml, by rw [List.get_eq_getElem, hw, h1], h2⟩
  · rintro ⟨i, h, rfl, rfl⟩
    exact buildEncoding_mem l i h

lemma buildEncoding_fst (l : List String) : (buildEncoding l).map Prod.fst = l := by
  unfold buildEncoding
  rw [List.map_map]
  have h1 : (Prod.fst ∘ fun p : ℕ × String => (p.2, p.1 % 256)) = Prod.snd := rfl
  rw [h1, List.enum_eq_enumFrom, List.enumFrom_map_snd]

lemma buildEncoding_snd (l : List String) (hlen : l.length ≤ 256) :
    (buildEncoding l).map Prod.snd = List.range l.length := by
  unfold buildEncoding
  rw [List.map_map]
  have h1 : (Prod.snd ∘ fun p : ℕ × String => (p.2, p.1 % 256))
      = ((fun i => i % 256) ∘ Prod.fst) := rfl
  rw [h1, ← List.map_map, List.enum_eq_enumFrom, List.enumFrom_map_fst,
    ← List.range_eq_range']
  have h2 : ∀ i ∈ List.range l.length, i % 256 = i := fun i hi =>
    Nat.mod_eq_of_lt (lt_of_lt_of_le (List.mem_range.mp hi) hlen)
  rw [List.map_congr_left h2]
  simp

lemma buildEncoding_map_range (f : ℕ → String) (n k : ℕ) (h : k < n) :
    (f k, k % 256) ∈ buildEncoding ((List.range n).map f) := by
  have h2 : k < ((List.range n).map f).length := by
    rw [List.length_map, List.length_range]
    exact h
  have hmem := buildEncoding_mem ((List.range n).map f) k h2
  have hg : ((List.range n).map f).get ⟨k, h2⟩ = f k := by
    rw [List.get_eq_getElem, List.getElem_map, List.getElem_range]
  rwa [hg] at hmem

/-- C4 (amended): for up to 256 distinct strings the encoding map has
exactly the input strings as keys, assigns exactly one code per string,
codes are pairwise distinct and form the dense range [0, N).  The length
bound is forced by build_encoding_counter: the index as u8 truncation
makes codes collide once N exceeds 256. -/
theorem build_encoding_dense_bijection (groups : List String) (hnd : groups.Nodup)
    (hlen : groups.length ≤ 256) :
    (buildEncoding groups).map Prod.fst = groups ∧
    (buildEncoding groups).map Prod.snd = List.range groups.length ∧
    ((buildEncoding groups).map Prod.snd).Nodup ∧
    (∀ s ∈ groups, ∃! c, (s, c) ∈ buildEncoding groups) := by
  refine ⟨buildEncoding_fst groups, buildEncoding_snd groups hlen, ?_, ?_⟩
  · rw [buildEncoding_snd groups hlen]
    exact List.nodup_range _
  · intro s hs
    obtain ⟨i, hi⟩ := List.mem_iff_get.mp hs
    refine ⟨i.1 % 256, ?_, ?_⟩
    · have := buildEncoding_mem groups i.1 i.isLt
      rwa [show (⟨i.1, i.isLt⟩ : Fin groups.length) = i from rfl, hi] at this
    · intro c hc
      obtain ⟨j, hjl, hgj, rfl⟩ := mem_buildEncoding_iff.mp hc
      have hfin : (⟨j, hjl⟩ : Fin groups.length) = i := by
        apply (List.Nodup.get_inj_iff hnd).mp
        rw [hgj, hi]
      have hj : j = i.1 := by
        have := congrArg Fin.val hfin
        simpa using this
      rw [hj]

/-- C4 counterexample: with 257 pairwise distinct strings the u8 code
truncation (index as u8, embedded as index % 256) assigns the same code 0
to the 1st and the 257th string, so distinct strings share a code and the
codes do not form [0, N). -/
theorem build_encoding_counter :
    groups257.Nodup ∧
    (strOfLen 0, 0) ∈ buildEncoding groups257 ∧
    (strOfLen 256, 0) ∈ buildEncoding groups257 ∧
    strOfLen 0 ≠ strOfLen 256 := by
  refine ⟨groups257_nodup, ?_, ?_, ?_⟩
  · have := buildEncoding_map_range strOfLen 257 0 (by norm_num)
    simpa only [Nat.zero_mod] using this
  · have := buildEncoding_map_range strOfLen 257 256 (by norm_num)
    simpa only [Nat.mod_self] using this
  · intro h
    have h2 := congrArg String.length h
    rw [strOfLen_length, strOfLen_length] at h2
    exact absurd h2 (by norm_num)

lemma calc_single (v : ℚ) (h : 0 ≤ v) : calc_iqr_and_bounds [v] = some (v, v) := by
  rw [calc_iqr_and_bounds, calculate_percentile_singleton, calculate_percentile_singleton]
  simp [sub_self, max_eq_left h]

lemma exA_prices : pricesOf exA = [10, 20, 30, 40, 1000] := by
  simp [pricesOf, exA, recA1, recA2, recA3, recA4, recA5, mkRec]

lemma exA_mn : minNightsOf exA = [1, 1, 1, 1, 1] := by
  simp [minNightsOf, exA, recA1, recA2, recA3, recA4, recA5, mkRec]

lemma exA_nr : numReviewsOf exA = [1, 1, 1, 1, 1] := by
  simp [numReviewsOf, exA, recA1, recA2, recA3, recA4, recA5, mkRec]

lemma exA_av : availabilitiesOf exA = [100, 100, 100, 100, 100] := by
  simp [availabilitiesOf, exA, recA1, recA2, recA3, recA4, recA5, mkRec]

lemma sortP5 : List.insertionSort (· ≤ ·) [(10:ℚ), 20, 30, 40, 1000]
    = [10, 20, 30, 40, 1000] := by
  norm_num [List.insertionSort, List.orderedInsert]

lemma sortOnes : List.insertionSort (· ≤ ·) [(1:ℚ), 1, 1, 1, 1] = [1, 1, 1, 1, 1] := by
  norm_num [List.insertionSort, List.orderedInsert]

lemma sortHund : List.insertionSort (· ≤ ·) [(100:ℚ), 100, 100, 100, 100]
    = [100, 100, 100, 100, 100] := by
  norm_num [List.insertionSort, List.orderedInsert]

lemma sortP4 : List.insertionSort (· ≤ ·) [(10:ℚ), 20, 30, 40] = [10, 20, 30, 40] := by
  norm_num [List.insertionSort, List.orderedInsert]

lemma rank5_25 : percentileRank 5 25 = 1 := by
  norm_num [percentileRank, roundHalfAway]

lemma rank5_75 : percentileRank 5 75 = 3 := by
  norm_num [percentileRank, roundHalfAway]
  decide

lemma rank5_33 : percentileRank 5 33 = 1 := by
  norm_num [percentileRank, roundHalfAway]

lemma rank5_66 : percentileRank 5 66 = 3 := by
  norm_num [percentileRank, roundHalfAway]
  decide

lemma rank4_33 : percentileRank 4 33 = 1 := by
  norm_num [percentileRank, roundHalfAway]

lemma rank4_66 : percentileRank 4 66 = 2 := by
  norm_num [percentileRank, roundHalfAway]
  decide

lemma cpP5_25 : calculate_percentile [(10:ℚ), 20, 30, 40, 1000] 25 = some 20 := by
  rw [calculate_percentile, sortP5]
  simp [rank5_25]

lemma cpP5_75 : calculate_percentile [(10:ℚ), 20, 30, 40, 1000] 75 = some 40 := by
  rw [calculate_percentile, sortP5]
  simp [rank5_75]

lemma cpP5_33 : calculate_percentile [(10:ℚ), 20, 30, 40, 1000] 33 = some 20 := by
  rw [calculate_percentile, sortP5]
  simp [rank5_33]

lemma cpP5_66 : calculate_percentile [(10:ℚ), 20, 30, 40, 1000] 66 = some 40 := by
  rw [calculate_percentile, sortP5]
  simp [rank5_66]

lemma cpOnes_25 : calculate_percentile [(1:ℚ), 1, 1, 1, 1] 25 = some 1 := by
  rw [calculate_percentile, sortOnes]
  simp [rank5_25]

lemma cpOnes_75 : calculate_percentile [(1:ℚ), 1, 1, 1, 1] 75 = some 1 := by
  rw [calculate_percentile, sortOnes]
  simp [rank5_75]

lemma cpHund_25 : calculate_percentile [(100:ℚ), 100, 100, 100, 100] 25 = some 100 := by
  rw [calculate_percentile, sortHund]
  simp [rank5_25]

lemma cpHund_75 : calculate_percentile [(100:ℚ), 100, 100, 100, 100] 75 = some 100 := by
  rw [calculate_percentile, sortHund]
  simp [rank5_75]

lemma cpP4_33 : calculate_percentile [(10:ℚ), 20, 30, 40] 33 = some 20 := by
  rw [calculate_percentile, sortP4]
  simp [rank4_33]

lemma cpP4_66 : calculate_percentile [(10:ℚ), 20, 30, 40] 66 = some 30 := by
  rw [calculate_percentile, sortP4]
  simp [rank4_66]

lemma bndP5 : calc_iqr_and_bounds [(10:ℚ), 20, 30, 40, 1000] = some (0, 70) := by
  rw [calc_iqr_and_bounds, cpP5_25, cpP5_75]
  norm_num

lemma bndOnes : calc_iqr_and_bounds [(1:ℚ), 1, 1, 1, 1] = some (1, 1) := by
  rw [calc_iqr_and_bounds, cpOnes_25, cpOnes_75]
  norm_num

lemma bndHund : calc_iqr_and_bounds [(100:ℚ), 100, 100, 100, 100] = some (100, 100) := by
  rw [calc_iqr_and_bounds, cpHund_25, cpHund_75]
  norm_num

lemma exA_bounds : allBounds exA = some ⟨(1, 1), (1, 1), (0, 70), (100, 100)⟩ := by
  rw [allBounds, exA_prices, exA_mn, exA_nr, exA_av, bndP5, bndOnes, bndHund]

lemma exA_filter : filterStage ⟨(1, 1), (1, 1), (0, 70), (100, 100)⟩ exA
    = [recA1, recA2, recA3, recA4] := by
  norm_num [filterStage, survives, checkCol, exA, recA1, recA2, recA3, recA4, recA5,
    mkRec, List.filter]

lemma exA_groups : groupsOf exA = ["A"] := by
  decide

lemma exA_thresholds : priceThresholds (pricesOf exA) = some (20, 40) := by
  rw [exA_prices, priceThresholds, cpP5_33, cpP5_66]

lemma exA_pipeline : pipeline exA = some [⟨0, 1, "low", 1, 1⟩, ⟨0, 1, "medium", 1, 1⟩,
    ⟨0, 1, "medium", 1, 1⟩, ⟨0, 1, "high", 1, 1⟩] := by
  rw [pipeline_eq exA ⟨(1, 1), (1, 1), (0, 70), (100, 100)⟩ 20 40 exA_bounds exA_thresholds,
    exA_filter, exA_groups]
  norm_num [emitStage, writtenB, emitRow, encode_features, buildEncoding,
    recA1, recA2, recA3, recA4, mkRec, List.filter, List.lookup, List.enum, List.enumFrom]
  decide

lemma exA_spec_thresholds : specFilteredThresholds exA = some (20, 30) := by
  rw [specFilteredThresholds, exA_bounds]
  show priceThresholds (pricesOf
    (filterStage ⟨(1, 1), (1, 1), (0, 70), (100, 100)⟩ exA)) = some (20, 30)
  rw [exA_filter]
  have h : pricesOf [recA1, recA2, recA3, recA4] = [10, 20, 30, 40] := by
    simp [pricesOf, recA1, recA2, recA3, recA4, mkRec]
  rw [h, priceThresholds, cpP4_33, cpP4_66]

/-- C1 counterexample: on dataset exA the outlier filter drops the price
1000, yet the pipeline categorizes with thresholds (20, 40) computed over
the unfiltered prices; the thresholds over the filtered dataset are
(20, 30), under which the price-30 record would be high while the
pipeline emits medium for it (third output row). -/
theorem percentile_policy_counter :
    pipeline exA = some [⟨0, 1, "low", 1, 1⟩, ⟨0, 1, "medium", 1, 1⟩,
      ⟨0, 1, "medium", 1, 1⟩, ⟨0, 1, "high", 1, 1⟩] ∧
    specFilteredThresholds exA = some (20, 30) ∧
    (exA.map fun r => r.price) = [some 10, some 20, some 30, some 40, some 1000] ∧
    (if (30:ℚ) < 20 then "low" else if (30:ℚ) < 30 then "medium" else "high") = "high" ∧
    ("medium" : String) ≠ "high" := by
  refine ⟨exA_pipeline, exA_spec_thresholds, ?_, by norm_num, by decide⟩
  simp [exA, recA1, recA2, recA3, recA4, recA5, mkRec]

/-- C1 witness: the amended theorem evaluated on the concrete dataset
exA. -/
theorem percentile_policy_witness :
    pipeline exA = some [⟨0, 1, "low", 1, 1⟩, ⟨0, 1, "medium", 1, 1⟩,
      ⟨0, 1, "medium", 1, 1⟩, ⟨0, 1, "high", 1, 1⟩] ∧
    (∃ t1 t2, calculate_percentile (pricesOf exA) 33 = some t1 ∧
      calculate_percentile (pricesOf exA) 66 = some t2 ∧
      ∀ row ∈ [(⟨0, 1, "low", 1, 1⟩ : OutputRow), ⟨0, 1, "medium", 1, 1⟩,
          ⟨0, 1, "medium", 1, 1⟩, ⟨0, 1, "high", 1, 1⟩],
        ∃ r ∈ exA, ∃ p, r.price = some p ∧
          row.price_category =
            (if p < t1 then "low" else if p < t2 then "medium" else "high")) :=
  ⟨exA_pipeline, thresholds_from_unfiltered_prices exA _ exA_pipeline⟩

lemma exB_bounds : allBounds exB = some ⟨(1, 1), (1, 1), (10, 10), (1, 1)⟩ := by
  have hp : pricesOf exB = [10] := by simp [pricesOf, exB, recB1, mkRec]
  have hm : minNightsOf exB = [1] := by simp [minNightsOf, exB, recB1, mkRec]
  have hn : numReviewsOf exB = [1] := by simp [numReviewsOf, exB, recB1, mkRec]
  have ha : availabilitiesOf exB = [1] := by simp [availabilitiesOf, exB, recB1, mkRec]
  rw [allBounds, hp, hm, hn, ha, calc_single 10 (by norm_num), calc_single 1 (by norm_num)]

lemma exB_thresholds : priceThresholds (pricesOf exB) = some (10, 10) := by
  have hp : pricesOf exB = [10] := by simp [pricesOf, exB, recB1, mkRec]
  rw [hp, priceThresholds, calculate_percentile_singleton, calculate_percentile_singleton]

lemma exB_filter : filterStage ⟨(1, 1), (1, 1), (10, 10), (1, 1)⟩ exB = exB := by
  norm_num [filterStage, survives, checkCol, exB, recB1, mkRec, List.filter]

lemma exB_groups : groupsOf exB = ["A"] := by decide

lemma exB_pipeline : pipeline exB = some [⟨0, 0, "high", 1, 1⟩] := by
  rw [pipeline_eq exB ⟨(1, 1), (1, 1), (10, 10), (1, 1)⟩ 10 10 exB_bounds exB_thresholds,
    exB_filter, exB_groups]
  norm_num [emitStage, writtenB, emitRow, encode_features, buildEncoding,
    exB, recB1, mkRec, List.filter, List.lookup, List.enum, List.enumFrom]

/-- C2 counterexample: a record whose room type is absent flows through the
pipeline to an emitted row whose room-type code is 0 (the
unwrap_or_default of the never-assigned field), not the catch-all 3
asserted by the claim. -/
theorem room_type_absent_counter :
    (exB.map fun r => r.room_type) = [none] ∧
    pipeline exB = some [⟨0, 0, "high", 1, 1⟩] ∧
    ((⟨0, 0, "high", 1, 1⟩ : OutputRow).room_type_encoded = 0) ∧
    (0 : ℕ) ≠ 3 := by
  refine ⟨?_, exB_pipeline, rfl, by norm_num⟩
  simp [exB, recB1, mkRec]

/-- C2 witness: concrete instances of room_type_encoding, evaluating the
encoder at a record with room type present (code 1) and at one with the
room type absent (emitted code bounded by 3). -/
theorem room_type_encoding_witness :
    ((encode_features (mkRec (some "A") (some "Private room") (some 10)
        (some 1) (some 1) (some 1)) [] 0 0).room_type_encoded = some 1) ∧
    ((emitRow (encode_features (mkRec (some "A") none (some 10)
        (some 1) (some 1) (some 1)) [] 0 0)).room_type_encoded ≤ 3) := by
  constructor
  · have h := (room_type_encoding (mkRec (some "A") (some "Private room") (some 10)
      (some 1) (some 1) (some 1)) [] 0 0).1
    simpa [mkRec] using h
  · exact (room_type_encoding (mkRec (some "A") none (some 10)
      (some 1) (some 1) (some 1)) [] 0 0).2.2 rfl

lemma exC_prices : pricesOf exC = [10, 10] := by simp [pricesOf, exC, recC1, recC2, mkRec]

lemma sortTens : List.insertionSort (· ≤ ·) [(10:ℚ), 10] = [10, 10] := by
  norm_num [List.insertionSort, List.orderedInsert]

lemma sortOnes2 : List.insertionSort (· ≤ ·) [(1:ℚ), 1] = [1, 1] := by
  norm_num [List.insertionSort, List.orderedInsert]

lemma rank2_25 : percentileRank 2 25 = 0 := by norm_num [percentileRank, roundHalfAway]

lemma rank2_75 : percentileRank 2 75 = 1 := by norm_num [percentileRank, roundHalfAway]

lemma rank2_33 : percentileRank 2 33 = 0 := by norm_num [percentileRank, roundHalfAway]

lemma rank2_66 : percentileRank 2 66 = 1 := by norm_num [percentileRank, roundHalfAway]

lemma cpTens_25 : calculate_percentile [(10:ℚ), 10] 25 = some 10 := by
  rw [calculate_percentile, sortTens]
  simp [rank2_25]

lemma cpTens_75 : calculate_percentile [(10:ℚ), 10] 75 = some 10 := by
  rw [calculate_percentile, sortTens]
  simp [rank2_75]

lemma cpTens_33 : calculate_percentile [(10:ℚ), 10] 33 = some 10 := by
  rw [calculate_percentile, sortTens]
  simp [rank2_33]

lemma cpTens_66 : calculate_percentile [(10:ℚ), 10] 66 = some 10 := by
  rw [calculate_percentile, sortTens]
  simp [rank2_66]

lemma cpOnes2_25 : calculate_percentile [(1:ℚ), 1] 25 = some 1 := by
  rw [calculate_percentile, sortOnes2]
  simp [rank2_25]

lemma cpOnes2_75 : calculate_percentile [(1:ℚ), 1] 75 = some 1 := by
  rw [calculate_percentile, sortOnes2]
  simp [rank2_75]

lemma bndTens : calc_iqr_and_bounds [(10:ℚ), 10] = some (10, 10) := by
  rw [calc_iqr_and_bounds, cpTens_25, cpTens_75]
  norm_num

lemma bndOnes2 : calc_iqr_and_bounds [(1:ℚ), 1] = some (1, 1) := by
  rw [calc_iqr_and_bounds, cpOnes2_25, cpOnes2_75]
  norm_num

lemma exC_bounds : allBounds exC = some ⟨(1, 1), (1, 1), (10, 10), (1, 1)⟩ := by
  have hm : minNightsOf exC = [1, 1] := by simp [minNightsOf, exC, recC1, recC2, mkRec]
  have hn : numReviewsOf exC = [1, 1] := by simp [numReviewsOf, exC, recC1, recC2, mkRec]
  have ha : availabilitiesOf exC = [1, 1] := by
    simp [availabilitiesOf, exC, recC1, recC2, mkRec]
  rw [allBounds, exC_prices, hm, hn, ha, bndTens, bndOnes2]

lemma exC_thresholds : priceThresholds (pricesOf exC) = some (10, 10) := by
  rw [exC_prices, priceThresholds, cpTens_33, cpTens_66]

lemma exC_filter : filterStage ⟨(1, 1), (1, 1), (10, 10), (1, 1)⟩ exC = exC := by
  norm_num [filterStage, survives, checkCol, exC, recC1, recC2, mkRec, List.filter]

lemma exC_groups : groupsOf exC = ["A"] := by decide

lemma exC_pipeline : pipeline exC = some [⟨0, 0, "high", 1, 1⟩] := by
  rw [pipeline_eq exC ⟨(1, 1), (1, 1), (10, 10), (1, 1)⟩ 10 10 exC_bounds exC_thresholds,
    exC_filter, exC_groups]
  norm_num [emitStage, writtenB, emitRow, encode_features, buildEncoding,
    exC, recC1, recC2, mkRec, List.filter, List.lookup, List.enum, List.enumFrom]

/-- C3 witness: the two-record dataset exC, whose second record lacks a
neighbourhood group and is therefore excluded while the first is emitted. -/
theorem emission_characterization_witness :
    pipeline exC = some [⟨0, 0, "high", 1, 1⟩] ∧
    (∃ bs t1 t2, allBounds exC = some bs ∧
      priceThresholds (pricesOf exC) = some (t1, t2) ∧
      [(⟨0, 0, "high", 1, 1⟩ : OutputRow)]
        = (exC.filter (fun r => survives bs r && r.neighbourhood_group.isSome)).map
            (fun r => emitRow (encode_features r (buildEncoding (groupsOf exC)) t1 t2)) ∧
      (∀ r : AirbnbRecord, survives bs r = true ↔
        ((∃ m, r.minimum_nights = some m ∧ bs.minNights.1 ≤ (m:ℚ) ∧ (m:ℚ) ≤ bs.minNights.2) ∧
         (∃ c, r.number_of_reviews = some c ∧
            bs.numReviews.1 ≤ (c:ℚ) ∧ (c:ℚ) ≤ bs.numReviews.2) ∧
         (∃ p, r.price = some p ∧ bs.priceCol.1 ≤ p ∧ p ≤ bs.priceCol.2) ∧
         (∃ a, r.availability_365 = some a ∧
            bs.availability.1 ≤ (a:ℚ) ∧ (a:ℚ) ≤ bs.availability.2)))) :=
  ⟨exC_pipeline, emission_characterization exC _ exC_pipeline⟩

/-- C4 witness: the amended theorem evaluated on the two-element
vocabulary. -/
theorem build_encoding_witness :
    (["A", "B"] : List String).Nodup ∧ (["A", "B"] : List String).length ≤ 256 ∧
    ((buildEncoding ["A", "B"]).map Prod.fst = ["A", "B"] ∧
     (buildEncoding ["A", "B"]).map Prod.snd = List.range (["A", "B"] : List String).length ∧
     ((buildEncoding ["A", "B"]).map Prod.snd).Nodup ∧
     (∀ s ∈ (["A", "B"] : List String), ∃! c, (s, c) ∈ buildEncoding ["A", "B"])) :=
  ⟨by decide, by decide, build_encoding_dense_bijection ["A", "B"] (by decide) (by decide)⟩

/-- C6 witness: percentile 0 and percentile 100 on the concrete sequence
[3, 1, 2]. -/
theorem percentile_min_max_witness :
    ([(3:ℚ), 1, 2] ≠ []) ∧
    ((∃ m, calculate_percentile [(3:ℚ), 1, 2] 0 = some m ∧ m ∈ [(3:ℚ), 1, 2] ∧
        ∀ y ∈ [(3:ℚ), 1, 2], m ≤ y) ∧
     (∃ M, calculate_percentile [(3:ℚ), 1, 2] 100 = some M ∧ M ∈ [(3:ℚ), 1, 2] ∧
        ∀ y ∈ [(3:ℚ), 1, 2], y ≤ M)) :=
  ⟨by simp, percentile_zero_min_hundred_max [3, 1, 2] (by simp)⟩

/-- C7 witness: the amended bounds theorem on the concrete one-point
sequence [5]. -/
theorem bounds_ordered_witness :
    ([(5:ℚ)] ≠ [] ∧ (∀ x ∈ [(5:ℚ)], 0 ≤ x)) ∧
    ((∃ lo hi, calc_iqr_and_bounds [(5:ℚ)] = some (lo, hi) ∧ lo ≤ hi) ∧
     (∀ v : ℚ, [(5:ℚ)] = [v] → calc_iqr_and_bounds [(5:ℚ)] = some (v, v))) :=
  ⟨⟨by simp, by norm_num⟩, bounds_ordered_of_nonneg [5] (by simp) (by norm_num)⟩

/-- C10 witness: the rank bound and element membership at the concrete
sequence [3, 1, 2] with p = 40. -/
theorem percentile_rank_safe_witness :
    ([(3:ℚ), 1, 2] ≠ [] ∧ (0:ℚ) ≤ 40 ∧ (40:ℚ) ≤ 100) ∧
    (percentileRank ([(3:ℚ), 1, 2]).length 40 ≤ ([(3:ℚ), 1, 2]).length - 1 ∧
     ∃ v, calculate_percentile [(3:ℚ), 1, 2] 40 = some v ∧ v ∈ [(3:ℚ), 1, 2]) :=
  ⟨⟨by simp, by norm_num, by norm_num⟩,
   percentile_rank_safe [3, 1, 2] 40 (by simp) (by norm_num) (by norm_num)⟩
